import Mathlib

/-!
Shallow embedding of the M-Queue task queue engine (`src/Queue/Queue.ts`).

The queue stores records `{CallableFunction, ProcessId}` in an array `#Queue`,
together with a start flag `#isProcessStartFlag`, an execution state
`#ProcessState ∈ {UNDER_EXECUTION, IDLE}` and a public `CurrentProcessId`
(`string | number | null`).  The async private method `#Worker` dequeues the
front record, awaits its callable and emits a `getResult` event.

Modelling decisions:
* `ProcessId` values (`string | number`) become `JsId`; the runtime ids used by
  the code are strings and integers, and the only operations performed on them
  are strict equality (`===`, which never equates a string with a number) and
  JavaScript truthiness (`id || null`), both captured below.
* `Priority` option values (`number`) become `JsNum`: an integer or `NaN`.
  The code only uses truthiness (`p && ...`) and strict equality with the
  literals `0` and `1`; both factor through this model (`NaN` is falsy and
  strictly equal to nothing, every non-zero integer is truthy).
* A callable is modelled by the value its promise resolves to (a `Nat`); a
  settling callable has no other observable effect.
* `#Worker` is an `async` function invoked without `await`: it runs
  synchronously up to the single suspension point `await ele?.CallableFunction()`.
  `workerSync` is that synchronous prefix; a suspended worker frame is kept in
  `Config.inflight` as the record it dequeued.  `resumeStep` is the remainder of
  the worker body, run when the awaited promise settles: it builds and emits the
  result, returns to `IDLE` and synchronously re-invokes `#Worker`.
* Emitted `getResult` events are collected chronologically in `events`.
* A thrown `Error` becomes `Except.error`; every public operation returns the
  queue state at the point the exception escaped (throws happen before any
  mutation in the source).
-/

namespace MQueue

/-- A JavaScript `string | number` process id (integer-valued numbers). -/
inductive JsId where
  | num : Int → JsId
  | str : String → JsId
deriving DecidableEq

/-- JavaScript truthiness of an id: `0` and `""` are falsy. -/
def JsId.falsy : JsId → Bool
  | .num n => n == 0
  | .str s => s == ""

/-- A JavaScript `number` priority value: an integer or `NaN`. -/
inductive JsNum where
  | num : Int → JsNum
  | nan : JsNum
deriving DecidableEq

/-- JavaScript truthiness of a number: `0` and `NaN` are falsy. -/
def JsNum.truthy : JsNum → Bool
  | .num n => n != 0
  | .nan => false

/-- JavaScript strict equality of a number with an integer literal
(`NaN === x` is always false). -/
def JsNum.eqInt : JsNum → Int → Bool
  | .num n, m => n == m
  | .nan, _ => false

/-- `enum ProcessState` from `src/enum/enum.ts`. -/
inductive ProcessState where
  | UNDER_EXECUTION
  | IDLE
deriving DecidableEq

/-- A queued record (`type Process`): the callable is modelled by the value it
resolves to.  `mqPush` always stores an id, so the field is not optional here. -/
structure Process where
  value : Nat
  ProcessId : JsId
deriving DecidableEq

/-- Return type of `mqPush`/`mqPop`/`mqRemove` (`type PushPopReturnType`);
`ProcessId?` is optional in the source type. -/
structure PushPopReturnType where
  ProcessId : Option JsId
  QueueLength : Nat
deriving DecidableEq

/-- A `getResult` event payload (`type Result`). -/
structure Result where
  value : Nat
  processId : JsId
  queueLength : Nat
deriving DecidableEq

/-- `type Options`: both fields optional in the source; a wholly absent options
argument is the same as both fields `undefined`. -/
structure Options where
  Priority : Option JsNum
  ProcessId : Option JsId
deriving DecidableEq

/-- Errors thrown by the public operations (spec taxonomy names). -/
inductive QErr where
  | ValidationError
  | EmptyQueueError
  | ActiveTaskError
deriving DecidableEq

deriving instance DecidableEq for Except

/-- The fields of one `Queue` instance. -/
structure QState where
  Queue : List Process
  isProcessStartFlag : Bool
  processState : ProcessState
  CurrentProcessId : Option JsId
  events : List Result
deriving DecidableEq

/-- A machine configuration: the instance fields plus the suspended worker
frames (each frame holds the record it dequeued and is awaiting). -/
structure Config where
  st : QState
  inflight : List Process
deriving DecidableEq

/-- `this.CurrentProcessId = this.#Queue[0].ProcessId || null` (line 151). -/
def dequeueId (p : Process) : Option JsId :=
  if p.ProcessId.falsy then none else some p.ProcessId

/-- The synchronous prefix of `#Worker` (lines 145-154): guard, mark
`UNDER_EXECUTION`, set `CurrentProcessId`, shift the front record, call its
callable and suspend on the `await`. -/
def workerSync (c : Config) : Config :=
  if c.st.isProcessStartFlag = false then c
  else
    match c.st.Queue with
    | [] => c
    | p :: rest =>
      if c.st.processState = ProcessState.UNDER_EXECUTION then c
      else
        ⟨⟨rest, c.st.isProcessStartFlag, ProcessState.UNDER_EXECUTION, dequeueId p,
          c.st.events⟩, p :: c.inflight⟩

/-- The rest of the `#Worker` body after the `await` settles (lines 155-163):
build the result (reading `this.#Queue.length` now), emit it, return to `IDLE`
and re-invoke `#Worker`.  `rest` is the other suspended frames. -/
def resumeStep (st : QState) (p : Process) (rest : List Process) : Config :=
  workerSync ⟨⟨st.Queue, st.isProcessStartFlag, ProcessState.IDLE, st.CurrentProcessId,
    st.events ++ [⟨p.value, p.ProcessId, st.Queue.length⟩]⟩, rest⟩

/-- `const id = Options?.ProcessId !== undefined ? Options?.ProcessId : (this.#Queue.length + 1)`. -/
def pushId (c : Config) (opts : Options) : JsId :=
  match opts.ProcessId with
  | some i => i
  | none => .num (c.st.Queue.length + 1)

/-- Truthiness of `Options?.Priority` (undefined is falsy). -/
def priorityTruthy : Option JsNum → Bool
  | some p => p.truthy
  | none => false

/-- Strict equality `Options?.Priority === k` for an integer literal `k`
(`undefined === k` is false). -/
def optEqInt : Option JsNum → Int → Bool
  | some p, m => p.eqInt m
  | none, _ => false

/-- `Options?.Priority && Options?.Priority !== 0 && Options?.Priority !== 1` (line 64). -/
def invalidPriority (opts : Options) : Bool :=
  priorityTruthy opts.Priority && !(optEqInt opts.Priority 0) && !(optEqInt opts.Priority 1)

/-- Line 65: `Options?.Priority === Priority.HIGH` unshifts the new record at
the front, anything else pushes it at the back. -/
def pushInsert (c : Config) (v : Nat) (opts : Options) : Config :=
  if optEqInt opts.Priority 1 then
    ⟨⟨⟨v, pushId c opts⟩ :: c.st.Queue, c.st.isProcessStartFlag, c.st.processState,
      c.st.CurrentProcessId, c.st.events⟩, c.inflight⟩
  else
    ⟨⟨c.st.Queue ++ [⟨v, pushId c opts⟩], c.st.isProcessStartFlag, c.st.processState,
      c.st.CurrentProcessId, c.st.events⟩, c.inflight⟩

/-- Lines 65-66: insert, then `if (this.#isProcessStartFlag) this.#Worker()`. -/
def pushRun (c : Config) (v : Nat) (opts : Options) : Config :=
  if c.st.isProcessStartFlag then workerSync (pushInsert c v opts) else pushInsert c v opts

/-- `mqPush` (lines 62-68). -/
def mqPush (c : Config) (v : Nat) (opts : Options) : Except QErr PushPopReturnType × Config :=
  if invalidPriority opts then (.error .ValidationError, c)
  else (.ok ⟨some (pushId c opts), (pushRun c v opts).st.Queue.length⟩, pushRun c v opts)

/-- Replace the pending buffer, leaving every other field alone. -/
def setQueue (c : Config) (q : List Process) : Config :=
  ⟨⟨q, c.st.isProcessStartFlag, c.st.processState, c.st.CurrentProcessId, c.st.events⟩,
   c.inflight⟩

/-- `mqPop` (lines 77-83): empty check, `CurrentProcessId === last.ProcessId`
check, then `this.#Queue.pop()`. -/
def mqPop (c : Config) : Except QErr PushPopReturnType × Config :=
  if hq : c.st.Queue = [] then (.error .EmptyQueueError, c)
  else if c.st.CurrentProcessId = some (c.st.Queue.getLast hq).ProcessId then
    (.error .ActiveTaskError, c)
  else
    (.ok ⟨some (c.st.Queue.getLast hq).ProcessId, c.st.Queue.dropLast.length⟩,
     setQueue c c.st.Queue.dropLast)

/-- `findIndex` fused with `splice(i, 1)`: excise the first record whose id is
strictly equal to `pid`, or `none` when `findIndex` would return `-1`. -/
def removeFirstMatch (pid : JsId) : List Process → Option (Process × List Process)
  | [] => none
  | r :: rest =>
    if r.ProcessId = pid then some (r, rest)
    else
      match removeFirstMatch pid rest with
      | some (x, l) => some (x, r :: l)
      | none => none

/-- `mqRemove` (lines 94-100).  When no record matches, `findIndex` yields `-1`
and `splice(-1, 1)` excises the last record of the (non-empty) buffer, whose id
is then returned. -/
def mqRemove (c : Config) (pid : JsId) : Except QErr PushPopReturnType × Config :=
  if hq : c.st.Queue = [] then (.error .EmptyQueueError, c)
  else if c.st.CurrentProcessId = some pid then (.error .ActiveTaskError, c)
  else
    match removeFirstMatch pid c.st.Queue with
    | some (r, q') => (.ok ⟨some r.ProcessId, q'.length⟩, setQueue c q')
    | none =>
      (.ok ⟨some (c.st.Queue.getLast hq).ProcessId, c.st.Queue.dropLast.length⟩,
       setQueue c c.st.Queue.dropLast)

/-- `mqStart` (lines 106-109): raise the flag, invoke `#Worker`. -/
def mqStart (c : Config) : Config :=
  workerSync ⟨⟨c.st.Queue, true, c.st.processState, c.st.CurrentProcessId, c.st.events⟩,
    c.inflight⟩

/-- `mqEnd` (lines 115-117). -/
def mqEnd (c : Config) : Config :=
  ⟨⟨c.st.Queue, false, c.st.processState, c.st.CurrentProcessId, c.st.events⟩, c.inflight⟩

/-- `getCurrentProcessId` (lines 124-126). -/
def getCurrentProcessId (st : QState) : Option JsId :=
  st.CurrentProcessId

/-- `getQueueLength` (lines 133-135). -/
def getQueueLength (st : QState) : Nat :=
  st.Queue.length

/-- `new Queue()`: empty buffer, flag down, `IDLE`, `CurrentProcessId = null`. -/
def initQ : Config :=
  ⟨⟨[], false, ProcessState.IDLE, none, []⟩, []⟩

/-- One step of the system: a public operation invoked by the client, or the
settlement of the promise a suspended worker frame is awaiting. -/
inductive Step : Config → Config → Prop where
  | push (c : Config) (v : Nat) (opts : Options) : Step c (mqPush c v opts).2
  | pop (c : Config) : Step c (mqPop c).2
  | remove (c : Config) (pid : JsId) : Step c (mqRemove c pid).2
  | start (c : Config) : Step c (mqStart c)
  | stop (c : Config) : Step c (mqEnd c)
  | resume (c : Config) (p : Process) (rest : List Process) :
      c.inflight = p :: rest → Step c (resumeStep c.st p rest)

/-- Configurations reachable from a fresh queue by public operations and worker
resumptions. -/
def Reachable (c : Config) : Prop :=
  Relation.ReflTransGen Step initQ c

/-! ### Basic lemmas about the operations -/

lemma pushInsert_length (c : Config) (v : Nat) (opts : Options) :
    (pushInsert c v opts).st.Queue.length = c.st.Queue.length + 1 := by
  unfold pushInsert; split <;> simp

lemma pushInsert_flag (c : Config) (v : Nat) (opts : Options) :
    (pushInsert c v opts).st.isProcessStartFlag = c.st.isProcessStartFlag := by
  unfold pushInsert; split <;> rfl

lemma pushInsert_state (c : Config) (v : Nat) (opts : Options) :
    (pushInsert c v opts).st.processState = c.st.processState := by
  unfold pushInsert; split <;> rfl

lemma pushInsert_inflight (c : Config) (v : Nat) (opts : Options) :
    (pushInsert c v opts).inflight = c.inflight := by
  unfold pushInsert; split <;> rfl

lemma pushInsert_queue_ne (c : Config) (v : Nat) (opts : Options) :
    (pushInsert c v opts).st.Queue ≠ [] := by
  unfold pushInsert; split <;> simp

/-- The Execution Guard: a worker tick attempted while a task is already under
execution does nothing at all. -/
lemma workerSync_of_under_execution {c : Config}
    (hs : c.st.processState = ProcessState.UNDER_EXECUTION) :
    workerSync c = c := by
  unfold workerSync
  split
  · rfl
  · split
    · rfl
    · simp [hs]

/-- A worker tick fired from an idle, started, non-empty configuration dequeues
exactly the front record. -/
lemma workerSync_fire {c : Config} {p : Process} {rest : List Process}
    (hf : c.st.isProcessStartFlag = true) (hq : c.st.Queue = p :: rest)
    (hi : c.st.processState = ProcessState.IDLE) :
    workerSync c =
      ⟨⟨rest, true, ProcessState.UNDER_EXECUTION, dequeueId p, c.st.events⟩,
       p :: c.inflight⟩ := by
  unfold workerSync
  rw [hf, hq]
  simp [hi]

lemma workerSync_queue_length (c : Config) :
    (workerSync c).st.Queue.length = c.st.Queue.length ∨
      (workerSync c).st.Queue.length + 1 = c.st.Queue.length := by
  unfold workerSync
  split
  · exact Or.inl rfl
  · split
    · exact Or.inl rfl
    · split
      · exact Or.inl rfl
      · rename_i heq _
        right
        rw [heq]
        rfl

/-! ### The execution-guard invariant (at most one suspended worker frame) -/

/-- Invariant tying the `#ProcessState` flag to the suspended worker frames:
there is at most one frame, and there is one exactly when the flag reads
`UNDER_EXECUTION`. -/
def GuardInv (c : Config) : Prop :=
  c.inflight.length ≤ 1 ∧
    (c.st.processState = ProcessState.UNDER_EXECUTION ↔ c.inflight ≠ [])

lemma guardInv_of_same {c c' : Config} (h : GuardInv c)
    (hp : c'.st.processState = c.st.processState) (hi : c'.inflight = c.inflight) :
    GuardInv c' := by
  unfold GuardInv at h ⊢
  rw [hp, hi]
  exact h

lemma guardInv_workerSync {c : Config} (h : GuardInv c) : GuardInv (workerSync c) := by
  unfold workerSync
  split
  · exact h
  · split
    · exact h
    · split
      · exact h
      · rename_i hstate
        have hinf : c.inflight = [] := by
          by_contra hne
          exact hstate (h.2.mpr hne)
        rw [hinf]
        exact ⟨by simp, by simp⟩

lemma guardInv_setQueue {c : Config} (q : List Process) (h : GuardInv c) :
    GuardInv (setQueue c q) :=
  guardInv_of_same h rfl rfl

lemma guardInv_step {c c' : Config} (hs : Step c c') (h : GuardInv c) : GuardInv c' := by
  cases hs with
  | push v opts =>
    unfold mqPush
    split
    · exact h
    · show GuardInv (pushRun c v opts)
      unfold pushRun
      have hins : GuardInv (pushInsert c v opts) :=
        guardInv_of_same h (pushInsert_state c v opts) (pushInsert_inflight c v opts)
      split
      · exact guardInv_workerSync hins
      · exact hins
  | pop =>
    unfold mqPop
    split
    · exact h
    · split
      · exact h
      · exact guardInv_setQueue _ h
  | remove pid =>
    unfold mqRemove
    split
    · exact h
    · split
      · exact h
      · split
        · exact guardInv_setQueue _ h
        · exact guardInv_setQueue _ h
  | start =>
    exact guardInv_workerSync (guardInv_of_same h rfl rfl)
  | stop =>
    exact guardInv_of_same h rfl rfl
  | resume p rest hinf =>
    have hrest : rest = [] := by
      have h1 := h.1
      rw [hinf] at h1
      simp at h1
      exact h1
    subst hrest
    unfold resumeStep
    exact guardInv_workerSync ⟨by simp, by simp⟩

lemma reachable_guardInv {c : Config} (h : Reachable c) : GuardInv c := by
  induction h with
  | refl => exact ⟨by simp [initQ], by simp [initQ]⟩
  | tail _ hstep ih => exact guardInv_step hstep ih

/-- Inversion of a successful push: the result components and the new state. -/
lemma mqPush_ok {c : Config} {v : Nat} {opts : Options} {out : PushPopReturnType}
    {c' : Config} (h : mqPush c v opts = (.ok out, c')) :
    out = ⟨some (pushId c opts), (pushRun c v opts).st.Queue.length⟩ ∧
      c' = pushRun c v opts := by
  unfold mqPush at h
  split at h
  · simp at h
  · rw [Prod.mk.injEq] at h
    obtain ⟨h1, h2⟩ := h
    rw [Except.ok.injEq] at h1
    exact ⟨h1.symm, h2.symm⟩

/-! ### Concrete configurations used in the concrete runs below -/

/-- An absent options argument: both fields `undefined`. -/
def noOpts : Options := ⟨none, none⟩

/-- State after `mqPush(f)` on a fresh (not started) queue: one pending record
with auto-generated id `1`. -/
def cPushed1 : Config := ⟨⟨[⟨0, .num 1⟩], false, ProcessState.IDLE, none, []⟩, []⟩

/-- State after `mqStart()` on `cPushed1`: the worker has dequeued record `1`
and is awaiting its callable. -/
def cRunning1 : Config :=
  ⟨⟨[], true, ProcessState.UNDER_EXECUTION, some (.num 1), []⟩, [⟨0, .num 1⟩]⟩

/-- State after record `1`'s callable settles: the result has been emitted and
the worker is back to `IDLE`, yet `CurrentProcessId` still reads `1`. -/
def cDone1 : Config :=
  ⟨⟨[], true, ProcessState.IDLE, some (.num 1), [⟨0, .num 1, 0⟩]⟩, []⟩

lemma step_initQ_cPushed1 : Step initQ cPushed1 := by
  have e : (mqPush initQ 0 noOpts).2 = cPushed1 := by decide
  exact e ▸ Step.push initQ 0 noOpts

lemma step_cPushed1_cRunning1 : Step cPushed1 cRunning1 := by
  have e : mqStart cPushed1 = cRunning1 := by decide
  exact e ▸ Step.start cPushed1

lemma step_cRunning1_cDone1 : Step cRunning1 cDone1 := by
  have e : resumeStep cRunning1.st ⟨0, .num 1⟩ [] = cDone1 := by decide
  exact e ▸ Step.resume cRunning1 ⟨0, .num 1⟩ [] rfl

/-- A full push/start/complete run is reachable from a fresh queue. -/
lemma reachable_cDone1 : Reachable cDone1 :=
  Relation.ReflTransGen.tail
    (Relation.ReflTransGen.tail
      (Relation.ReflTransGen.tail Relation.ReflTransGen.refl step_initQ_cPushed1)
      step_cPushed1_cRunning1)
    step_cRunning1_cDone1

/-! ### Claim theorems -/

/-- Claim C1: on the non-empty idle queue holding only the record with id `1`,
`mqRemove 2` — an id equal to no record and not the current-task id — does not
fail with `NotFoundError`: `findIndex` yields `-1`, `splice(-1, 1)` excises the
tail record, and the call returns that record's id with the shortened length. -/
theorem c1_remove_missing_id_excises_tail :
    mqRemove ⟨⟨[⟨5, .num 1⟩], false, ProcessState.IDLE, none, []⟩, []⟩ (.num 2) =
      (.ok ⟨some (.num 1), 0⟩, ⟨⟨[], false, ProcessState.IDLE, none, []⟩, []⟩) := by
  decide

/-- Claim C2, counterexample: the reachable state `cDone1` — obtained by
pushing one task, starting the queue and letting the task complete — has the
execution flag back at `IDLE` while the current-task id still reads `1`, so the
claimed "non-none iff EXECUTING" invariant fails on the code. -/
theorem c2_counterexample_idle_with_current_id :
    Reachable cDone1 ∧ cDone1.st.processState = ProcessState.IDLE ∧
      cDone1.st.CurrentProcessId ≠ none :=
  ⟨reachable_cDone1, rfl, by decide⟩

/-- Claim C2 (amended): worker completion publishes the result and returns the
flag to `IDLE` without ever resetting the current-task id — when no further
task is dequeued (empty buffer), `CurrentProcessId` retains the value it held
during the just-finished execution (the last-executed id). -/
theorem c2_amended_current_id_retained (st : QState) (p : Process)
    (rest : List Process) (hq : st.Queue = []) :
    (resumeStep st p rest).st.processState = ProcessState.IDLE ∧
      (resumeStep st p rest).st.CurrentProcessId = st.CurrentProcessId ∧
      (resumeStep st p rest).st.events
        = st.events ++ [⟨p.value, p.ProcessId, st.Queue.length⟩] := by
  unfold resumeStep workerSync
  simp only [hq]
  split
  · exact ⟨rfl, rfl, rfl⟩
  · exact ⟨rfl, rfl, rfl⟩

/-- Claim C2 (amended), witness at the concrete run of `cRunning1`. -/
theorem c2_amended_witness :
    cRunning1.st.Queue = [] ∧
      ((resumeStep cRunning1.st ⟨0, .num 1⟩ []).st.processState = ProcessState.IDLE ∧
       (resumeStep cRunning1.st ⟨0, .num 1⟩ []).st.CurrentProcessId
         = cRunning1.st.CurrentProcessId ∧
       (resumeStep cRunning1.st ⟨0, .num 1⟩ []).st.events
         = cRunning1.st.events ++ [⟨0, .num 1, cRunning1.st.Queue.length⟩]) :=
  ⟨rfl, c2_amended_current_id_retained cRunning1.st ⟨0, .num 1⟩ [] rfl⟩

/-- Claim C3, counterexample: `NaN` is a defined priority value that is neither
`HIGH(1)` nor `LOW(0)`, yet — being falsy — it short-circuits the validation
`Options?.Priority && ...`, so the push succeeds and appends the record. -/
theorem c3_counterexample_nan_priority_accepted :
    mqPush initQ 0 ⟨some JsNum.nan, none⟩ =
      (.ok ⟨some (.num 1), 1⟩,
       ⟨⟨[⟨0, .num 1⟩], false, ProcessState.IDLE, none, []⟩, []⟩) := by
  decide

lemma truthy_eqInt_zero {p : JsNum} (ht : p.truthy = true) : p.eqInt 0 = false := by
  cases p with
  | num n =>
    simp only [JsNum.truthy, bne_iff_ne] at ht
    simp [JsNum.eqInt, ht]
  | nan => rfl

/-- Claim C3 (amended): a push whose options carry a defined and truthy
priority value (one that is neither `0` nor `NaN`) different from `HIGH(1)`
fails with `ValidationError` and leaves the whole state — in particular the
pending buffer — unmodified; falsy priorities (`0`, `NaN`) are instead treated
as `LOW`. -/
theorem c3_amended_truthy_invalid_priority (c : Config) (v : Nat) (opts : Options)
    (p : JsNum) (hp : opts.Priority = some p) (ht : p.truthy = true)
    (h1 : p.eqInt 1 = false) :
    mqPush c v opts = (.error .ValidationError, c) := by
  have hv : invalidPriority opts = true := by
    unfold invalidPriority priorityTruthy optEqInt
    rw [hp]
    simp [ht, h1, truthy_eqInt_zero ht]
  unfold mqPush
  simp [hv]

/-- A push option carrying the out-of-range priority `2`. -/
def optsP2 : Options := ⟨some (.num 2), none⟩

/-- Claim C3 (amended), witness: priority `2` is rejected with the buffer of
`cPushed1` untouched. -/
theorem c3_amended_witness :
    optsP2.Priority = some (JsNum.num 2) ∧ (JsNum.num 2).truthy = true ∧
      (JsNum.num 2).eqInt 1 = false ∧
      mqPush cPushed1 0 optsP2 = (.error .ValidationError, cPushed1) :=
  ⟨rfl, by decide, by decide,
   c3_amended_truthy_invalid_priority cPushed1 0 optsP2 (JsNum.num 2) rfl
     (by decide) (by decide)⟩

/-- An empty queue that has been started (worker idle). -/
def cStartedEmpty : Config := ⟨⟨[], true, ProcessState.IDLE, none, []⟩, []⟩

/-- Claim C4, counterexample: on a started queue with an idle worker, the
worker tick triggered inside `mqPush` synchronously dequeues the new record
before the push returns, so the returned `QueueLength` is the pre-push count
(here `0`), not the count immediately after insertion (`1`). -/
theorem c4_counterexample_started_idle_push :
    mqStart initQ = cStartedEmpty ∧
      cStartedEmpty.st.Queue.length = 0 ∧
      (mqPush cStartedEmpty 0 noOpts).1 = .ok ⟨some (.num 1), 0⟩ ∧
      (mqPush cStartedEmpty 0 noOpts).1 ≠
        .ok ⟨some (.num 1), cStartedEmpty.st.Queue.length + 1⟩ := by
  decide

lemma workerSync_fire_length {c : Config} (hf : c.st.isProcessStartFlag = true)
    (hi : c.st.processState = ProcessState.IDLE) (hq : c.st.Queue ≠ []) :
    (workerSync c).st.Queue.length + 1 = c.st.Queue.length := by
  obtain ⟨p, rest, hpr⟩ := List.exists_cons_of_ne_nil hq
  rw [workerSync_fire hf hpr hi, hpr]
  rfl

/-- Claim C4 (amended): a successful push returns the pending count as it
stands when the call returns: one more than before the push, except when the
queue is started and the worker idle — then the worker tick fired inside the
push synchronously dequeues the front record first, and the returned count
equals the pre-push count. -/
theorem c4_amended_newlength (c : Config) (v : Nat) (opts : Options)
    (out : PushPopReturnType) (c' : Config) (h : mqPush c v opts = (.ok out, c')) :
    out.QueueLength = c'.st.Queue.length ∧
      (c.st.isProcessStartFlag = true ∧ c.st.processState = ProcessState.IDLE →
        out.QueueLength = c.st.Queue.length) ∧
      (¬ (c.st.isProcessStartFlag = true ∧ c.st.processState = ProcessState.IDLE) →
        out.QueueLength = c.st.Queue.length + 1) := by
  obtain ⟨ho, hc⟩ := mqPush_ok h
  subst ho
  subst hc
  refine ⟨rfl, ?_, ?_⟩
  · rintro ⟨hf, hs⟩
    have h1 := workerSync_fire_length (c := pushInsert c v opts)
      (by rw [pushInsert_flag]; exact hf) (by rw [pushInsert_state]; exact hs)
      (pushInsert_queue_ne c v opts)
    have h2 := pushInsert_length c v opts
    simp only [pushRun, hf, if_true]
    omega
  · intro hn
    cases hf : c.st.isProcessStartFlag with
    | false =>
      simp only [pushRun, hf, Bool.false_eq_true, if_false]
      exact pushInsert_length c v opts
    | true =>
      cases hst : c.st.processState with
      | IDLE => exact absurd ⟨hf, hst⟩ hn
      | UNDER_EXECUTION =>
        simp only [pushRun, hf, if_true]
        rw [workerSync_of_under_execution (by rw [pushInsert_state]; exact hst)]
        exact pushInsert_length c v opts

/-- Claim C4 (amended), witness: push on a fresh (not started) queue returns
length `1 = 0 + 1`. -/
theorem c4_amended_witness :
    mqPush initQ 0 noOpts = (.ok ⟨some (.num 1), 1⟩, cPushed1) ∧
      (⟨some (.num 1), 1⟩ : PushPopReturnType).QueueLength
        = initQ.st.Queue.length + 1 :=
  ⟨by decide,
   (c4_amended_newlength initQ 0 noOpts ⟨some (.num 1), 1⟩ cPushed1 (by decide)).2.2
     (by decide)⟩

/-- Claim C5: a successful push that omits the id option is assigned the id
`pending-buffer length immediately before the push, plus one` — recomputed from
the buffer at each call, not drawn from a monotonic counter. -/
theorem c5_auto_id_from_length (c : Config) (v : Nat) (opts : Options)
    (out : PushPopReturnType) (c' : Config) (hid : opts.ProcessId = none)
    (h : mqPush c v opts = (.ok out, c')) :
    out.ProcessId = some (.num (c.st.Queue.length + 1)) := by
  obtain ⟨ho, -⟩ := mqPush_ok h
  subst ho
  simp [pushId, hid]

/-- State after two id-omitting pushes on a fresh queue (auto ids `1`, `2`). -/
def cPushed2 : Config :=
  ⟨⟨[⟨0, .num 1⟩, ⟨0, .num 2⟩], false, ProcessState.IDLE, none, []⟩, []⟩

/-- Claim C5, witness: after push(auto id 1), push(auto id 2), pop (removes
id 2), the next id-omitting push is again assigned id `2` — the id is
recomputed from the current buffer length, so it repeats. -/
theorem c5_witness :
    noOpts.ProcessId = none ∧
      mqPop cPushed2 = (.ok ⟨some (.num 2), 1⟩, cPushed1) ∧
      mqPush cPushed1 0 noOpts = (.ok ⟨some (.num 2), 2⟩, cPushed2) ∧
      (⟨some (.num 2), 2⟩ : PushPopReturnType).ProcessId
        = some (.num (cPushed1.st.Queue.length + 1)) :=
  ⟨rfl, by decide, by decide,
   c5_auto_id_from_length cPushed1 0 noOpts ⟨some (.num 2), 2⟩ cPushed2 rfl (by decide)⟩

/-- Claim C6: on a queue that is not draining, a successful `HIGH(1)`-priority
push places the new record at the very front of the pending buffer, and any
other successful push (LOW or priority omitted) appends it at the back. -/
theorem c6_priority_insertion (c : Config) (v : Nat) (opts : Options)
    (out : PushPopReturnType) (c' : Config)
    (hs : c.st.isProcessStartFlag = false)
    (h : mqPush c v opts = (.ok out, c')) :
    (optEqInt opts.Priority 1 = true →
      c'.st.Queue = ⟨v, pushId c opts⟩ :: c.st.Queue) ∧
    (optEqInt opts.Priority 1 = false →
      c'.st.Queue = c.st.Queue ++ [⟨v, pushId c opts⟩]) := by
  obtain ⟨-, hc⟩ := mqPush_ok h
  subst hc
  constructor <;> intro hpr <;> simp [pushRun, hs, pushInsert, hpr]

/-- State after pushing A with LOW priority on a fresh queue. -/
def cA : Config := ⟨⟨[⟨0, .str "A"⟩], false, ProcessState.IDLE, none, []⟩, []⟩

/-- State after additionally pushing B with HIGH priority: B sits in front. -/
def cAB : Config :=
  ⟨⟨[⟨0, .str "B"⟩, ⟨0, .str "A"⟩], false, ProcessState.IDLE, none, []⟩, []⟩

/-- State after additionally pushing C with HIGH priority: front-to-back order
C, B, A. -/
def cABC : Config :=
  ⟨⟨[⟨0, .str "C"⟩, ⟨0, .str "B"⟩, ⟨0, .str "A"⟩], false, ProcessState.IDLE,
    none, []⟩, []⟩

def optsLowA : Options := ⟨some (.num 0), some (.str "A")⟩

def optsHighB : Options := ⟨some (.num 1), some (.str "B")⟩

def optsHighC : Options := ⟨some (.num 1), some (.str "C")⟩

/-- Claim C6, witness: pushing A(LOW), then B(HIGH), then C(HIGH) leaves the
buffer in front-to-back order C, B, A, the C push landing at the very front. -/
theorem c6_witness :
    mqPush initQ 0 optsLowA = (.ok ⟨some (.str "A"), 1⟩, cA) ∧
      mqPush cA 0 optsHighB = (.ok ⟨some (.str "B"), 2⟩, cAB) ∧
      mqPush cAB 0 optsHighC = (.ok ⟨some (.str "C"), 3⟩, cABC) ∧
      cABC.st.Queue = ⟨0, .str "C"⟩ :: cAB.st.Queue :=
  ⟨by decide, by decide, by decide,
   (c6_priority_insertion cAB 0 optsHighC ⟨some (.str "C"), 3⟩ cABC rfl (by decide)).1
     (by decide)⟩

/-- Claim C7: `mqPop` fails with `EmptyQueueError` on an empty buffer, fails
with `ActiveTaskError` when the tail record's id equals the current-task id,
and otherwise removes exactly the tail record, returning its id with the
decremented pending count. -/
theorem c7_pop_spec (c : Config) :
    (c.st.Queue = [] → mqPop c = (.error .EmptyQueueError, c)) ∧
      (∀ hq : c.st.Queue ≠ [],
        (c.st.CurrentProcessId = some (c.st.Queue.getLast hq).ProcessId →
          mqPop c = (.error .ActiveTaskError, c)) ∧
        (c.st.CurrentProcessId ≠ some (c.st.Queue.getLast hq).ProcessId →
          mqPop c =
            (.ok ⟨some (c.st.Queue.getLast hq).ProcessId, c.st.Queue.dropLast.length⟩,
             setQueue c c.st.Queue.dropLast) ∧
          c.st.Queue.dropLast.length + 1 = c.st.Queue.length)) := by
  refine ⟨fun hq => ?_, fun hq => ⟨fun hcur => ?_, fun hcur => ⟨?_, ?_⟩⟩⟩
  · unfold mqPop
    rw [dif_pos hq]
  · unfold mqPop
    rw [dif_neg hq, if_pos hcur]
  · unfold mqPop
    rw [dif_neg hq, if_neg hcur]
  · have hpos := List.length_pos.mpr hq
    rw [List.length_dropLast]
    omega

/-- Three LOW pushes A, B, C in insertion order (C at the tail). -/
def cLowABC : Config :=
  ⟨⟨[⟨0, .str "A"⟩, ⟨0, .str "B"⟩, ⟨0, .str "C"⟩], false, ProcessState.IDLE,
    none, []⟩, []⟩

/-- Claim C7, witness: after pushing three LOW tasks A, B, C, `mqPop` removes
and returns C (the tail) with count `2`; on an empty queue it fails with
`EmptyQueueError`. -/
theorem c7_witness :
    mqPop cLowABC =
        (.ok ⟨some (.str "C"), 2⟩,
         ⟨⟨[⟨0, .str "A"⟩, ⟨0, .str "B"⟩], false, ProcessState.IDLE, none, []⟩, []⟩) ∧
      mqPop initQ = (.error .EmptyQueueError, initQ) :=
  ⟨by
    have h := ((((c7_pop_spec cLowABC).2 (by decide)).2) (by decide)).1
    exact h.trans (by decide),
   (c7_pop_spec initQ).1 rfl⟩

/-- Repeatedly settle the suspended worker frame: each settlement runs the rest
of the worker body (`resumeStep`), which itself re-invokes the worker. -/
def runDrain : Config → Nat → Config
  | c, 0 => c
  | c, n + 1 =>
    match c.inflight with
    | [] => c
    | p :: rest => runDrain (resumeStep c.st p rest) n

/-- The `getResult` events produced by draining a buffer front to back with no
interleaved operations: each task's own id, paired with the pending count
remaining at the moment that task was dequeued. -/
def expectedResults : List Process → List Result
  | [] => []
  | p :: rest => ⟨p.value, p.ProcessId, rest.length⟩ :: expectedResults rest

lemma expectedResults_length (recs : List Process) :
    (expectedResults recs).length = recs.length := by
  induction recs with
  | nil => rfl
  | cons p rest ih => simp [expectedResults, ih]

lemma expectedResults_ids (recs : List Process) :
    (expectedResults recs).map (fun r => r.processId)
      = recs.map (fun p => p.ProcessId) := by
  induction recs with
  | nil => rfl
  | cons p rest ih => simp [expectedResults, ih]

lemma drain_go (recs : List Process) (cur : Option JsId) (ev : List Result) :
    ((runDrain (workerSync ⟨⟨recs, true, ProcessState.IDLE, cur, ev⟩, []⟩)
        recs.length).st.events = ev ++ expectedResults recs) ∧
      ((runDrain (workerSync ⟨⟨recs, true, ProcessState.IDLE, cur, ev⟩, []⟩)
        recs.length).st.Queue = []) ∧
      ((runDrain (workerSync ⟨⟨recs, true, ProcessState.IDLE, cur, ev⟩, []⟩)
        recs.length).inflight = []) ∧
      ((runDrain (workerSync ⟨⟨recs, true, ProcessState.IDLE, cur, ev⟩, []⟩)
        recs.length).st.processState = ProcessState.IDLE) := by
  induction recs generalizing cur ev with
  | nil => simp [workerSync, runDrain, expectedResults]
  | cons p rest ih =>
    have hws : workerSync ⟨⟨p :: rest, true, ProcessState.IDLE, cur, ev⟩, []⟩
        = ⟨⟨rest, true, ProcessState.UNDER_EXECUTION, dequeueId p, ev⟩, [p]⟩ :=
      workerSync_fire rfl rfl rfl
    rw [hws]
    have hrd : runDrain
        ⟨⟨rest, true, ProcessState.UNDER_EXECUTION, dequeueId p, ev⟩, [p]⟩
        (p :: rest).length
        = runDrain (workerSync ⟨⟨rest, true, ProcessState.IDLE, dequeueId p,
            ev ++ [⟨p.value, p.ProcessId, rest.length⟩]⟩, []⟩) rest.length := rfl
    rw [hrd]
    obtain ⟨i1, i2, i3, i4⟩ := ih (dequeueId p) (ev ++ [⟨p.value, p.ProcessId, rest.length⟩])
    refine ⟨?_, i2, i3, i4⟩
    rw [i1]
    simp [expectedResults]

/-- Claim C8: starting a queue holding any pending buffer drains every task
sequentially in buffer order: after as many settlements as there were pending
tasks, the buffer and the suspended frames are empty and exactly one
`getResult` event per task was published, in execution order, each carrying
that task's own id and the pending count remaining at the moment it was
dequeued. -/
theorem c8_start_drains_all (recs : List Process) (sf : Bool) (cur : Option JsId) :
    ((runDrain (mqStart ⟨⟨recs, sf, ProcessState.IDLE, cur, []⟩, []⟩)
        recs.length).st.events = expectedResults recs) ∧
      ((runDrain (mqStart ⟨⟨recs, sf, ProcessState.IDLE, cur, []⟩, []⟩)
        recs.length).st.Queue = []) ∧
      ((runDrain (mqStart ⟨⟨recs, sf, ProcessState.IDLE, cur, []⟩, []⟩)
        recs.length).inflight = []) ∧
      (expectedResults recs).length = recs.length ∧
      (expectedResults recs).map (fun r => r.processId)
        = recs.map (fun p => p.ProcessId) := by
  have hstart : mqStart ⟨⟨recs, sf, ProcessState.IDLE, cur, []⟩, []⟩
      = workerSync ⟨⟨recs, true, ProcessState.IDLE, cur, []⟩, []⟩ := rfl
  rw [hstart]
  obtain ⟨h1, h2, h3, -⟩ := drain_go recs cur []
  exact ⟨by simpa using h1, h2, h3, expectedResults_length recs,
    expectedResults_ids recs⟩

/-- Claim C9: in every reachable configuration at most one worker frame is
suspended mid-execution (at most one task is executing at any instant), and a
worker tick attempted while the execution flag reads `UNDER_EXECUTION` — for
example from a push arriving mid-execution — changes nothing at all: it only
leaves the freshly enqueued record in the buffer, never starting a second
concurrent dequeue-and-await cycle. -/
theorem c9_at_most_one_execution :
    (∀ c : Config, Reachable c → c.inflight.length ≤ 1) ∧
      (∀ c : Config, c.st.processState = ProcessState.UNDER_EXECUTION →
        workerSync c = c) :=
  ⟨fun _ h => (reachable_guardInv h).1,
   fun _ h => workerSync_of_under_execution h⟩

/-- Claim C9, witness: the reachable post-drain state has at most one frame,
and a tick on the mid-execution state `cRunning1` is a no-op. -/
theorem c9_witness :
    cDone1.inflight.length ≤ 1 ∧
      cRunning1.st.processState = ProcessState.UNDER_EXECUTION ∧
      workerSync cRunning1 = cRunning1 :=
  ⟨c9_at_most_one_execution.1 cDone1 reachable_cDone1, rfl,
   c9_at_most_one_execution.2 cRunning1 rfl⟩

lemma mqPop_no_active_of_none {c : Config} (h : c.st.CurrentProcessId = none) :
    (mqPop c).1 ≠ .error .ActiveTaskError := by
  unfold mqPop
  split
  · simp
  · rw [h]
    simp

lemma mqRemove_no_active_of_none {c : Config} (pid : JsId)
    (h : c.st.CurrentProcessId = none) :
    (mqRemove c pid).1 ≠ .error .ActiveTaskError := by
  unfold mqRemove
  split
  · simp
  · rw [h]
    rw [if_neg (by simp)]
    split <;> simp

/-- Claim C10: when the worker dequeues a record whose id is falsy (the number
`0` or the empty string), `CurrentProcessId = id || null` evaluates to `null`:
during that execution `getCurrentProcessId` returns none, and the
`ActiveTaskError` guards of `mqPop` and `mqRemove` cannot fire for that id. -/
theorem c10_falsy_id_clears_current (c : Config) (p : Process)
    (rest : List Process) (hf : c.st.isProcessStartFlag = true)
    (hq : c.st.Queue = p :: rest) (hi : c.st.processState = ProcessState.IDLE)
    (hfl : p.ProcessId.falsy = true) :
    (workerSync c).st.CurrentProcessId = none ∧
      getCurrentProcessId (workerSync c).st = none ∧
      (mqPop (workerSync c)).1 ≠ .error .ActiveTaskError ∧
      (mqRemove (workerSync c) p.ProcessId).1 ≠ .error .ActiveTaskError := by
  have hd : dequeueId p = none := by simp [dequeueId, hfl]
  rw [workerSync_fire hf hq hi, hd]
  exact ⟨rfl, rfl, mqPop_no_active_of_none rfl, mqRemove_no_active_of_none _ rfl⟩

/-- A started, idle queue holding one record with the caller-supplied falsy
id `0`. -/
def cFalsy : Config := ⟨⟨[⟨3, .num 0⟩], true, ProcessState.IDLE, none, []⟩, []⟩

/-- Claim C10, witness at the record with the caller-supplied number id `0`. -/
theorem c10_witness :
    cFalsy.st.isProcessStartFlag = true ∧ cFalsy.st.Queue = [⟨3, .num 0⟩] ∧
      cFalsy.st.processState = ProcessState.IDLE ∧ (JsId.num 0).falsy = true ∧
      ((workerSync cFalsy).st.CurrentProcessId = none ∧
       getCurrentProcessId (workerSync cFalsy).st = none ∧
       (mqPop (workerSync cFalsy)).1 ≠ .error .ActiveTaskError ∧
       (mqRemove (workerSync cFalsy) (.num 0)).1 ≠ .error .ActiveTaskError) :=
  ⟨rfl, rfl, rfl, by decide,
   c10_falsy_id_clears_current cFalsy ⟨3, .num 0⟩ [] rfl rfl rfl (by decide)⟩

end MQueue
